import Mathlib

/-!
Verification of the deepFibreTracking repository against its
natural-language specification.

The data-handling code (`src/data/__init__.py`) and the training losses
(`src/nn_helper.py`) are embedded directly from the source.  Exact
rational arithmetic (`ℚ`) models the float arithmetic of the data module;
the real numbers (`ℝ`) model the float arithmetic of the losses and of
the tracking engine.  The tracking engine itself (`src/tracking.py`,
`src/dwi_tools.py`) is not part of the provided sources, only its caller
`03_ismrm2015.py` is; those parts are modelled from the specification
text and are marked as such in their doc comments.
-/

namespace DFT

/-- A 3-D point with exact rational coordinates, modelling a float triple. -/
abbrev Vec3Q : Type := ℚ × ℚ × ℚ

/-- A 4x4 affine matrix as produced by `nibabel` for a NIfTI image
(`img.affine`).  NIfTI affines always carry the homogeneous bottom row
`(0, 0, 0, 1)`: the header only stores the top three rows and the loader
fills in the last one.  That loader guarantee is recorded as the `lastRow`
field. -/
structure Aff4 where
  mat : Matrix (Fin 4) (Fin 4) ℚ
  lastRow : ∀ j, mat 3 j = if j = 3 then 1 else 0

/-- `nibabel.affines.apply_affine aff p`: applies the linear part
`aff[:3, :3]` and adds the translation `aff[:3, 3]`. -/
def applyAffine (A : Matrix (Fin 4) (Fin 4) ℚ) (p : Vec3Q) : Vec3Q :=
  (A 0 0 * p.1 + A 0 1 * p.2.1 + A 0 2 * p.2.2 + A 0 3,
   A 1 0 * p.1 + A 1 1 * p.2.1 + A 1 2 * p.2.2 + A 1 3,
   A 2 0 * p.1 + A 2 1 * p.2.1 + A 2 2 * p.2.2 + A 2 3)

/-- `np.linalg.inv` on a 4x4 matrix, in exact arithmetic: the classical
adjugate formula `det⁻¹ • adjugate`. -/
def npinv (A : Matrix (Fin 4) (Fin 4) ℚ) : Matrix (Fin 4) (Fin 4) ℚ :=
  (A.det)⁻¹ • A.adjugate

theorem npinv_mul (A : Matrix (Fin 4) (Fin 4) ℚ) (h : IsUnit A.det) :
    npinv A * A = 1 := by
  have hd : A.det ≠ 0 := by
    simpa [isUnit_iff_ne_zero] using h
  rw [npinv, Matrix.smul_mul, Matrix.adjugate_mul, smul_smul,
    inv_mul_cancel₀ hd, one_smul]

theorem mul_npinv (A : Matrix (Fin 4) (Fin 4) ℚ) (h : IsUnit A.det) :
    A * npinv A = 1 := by
  have hd : A.det ≠ 0 := by
    simpa [isUnit_iff_ne_zero] using h
  rw [npinv, Matrix.mul_smul, Matrix.mul_adjugate, smul_smul,
    inv_mul_cancel₀ hd, one_smul]

/-- Composing the affine actions of two 4x4 matrices agrees with the
affine action of the product, provided the inner matrix has the
homogeneous bottom row. -/
theorem applyAffine_applyAffine (A B : Matrix (Fin 4) (Fin 4) ℚ)
    (hB : ∀ j, B 3 j = if j = 3 then 1 else 0) (p : Vec3Q) :
    applyAffine A (applyAffine B p) = applyAffine (A * B) p := by
  have h0 := hB 0
  have h1 := hB 1
  have h2 := hB 2
  have h3 := hB 3
  simp only [show ((0 : Fin 4) = 3) = False by decide,
    show ((1 : Fin 4) = 3) = False by decide,
    show ((2 : Fin 4) = 3) = False by decide,
    show ((3 : Fin 4) = 3) = True by decide, if_true, if_false] at h0 h1 h2 h3
  simp only [applyAffine, Matrix.mul_apply, Fin.sum_univ_four, h0, h1, h2, h3,
    Prod.mk.injEq]
  refine ⟨by ring, by ring, by ring⟩

theorem applyAffine_one (p : Vec3Q) : applyAffine 1 p = p := by
  simp [applyAffine, Matrix.one_apply]

/-- The bottom row of `npinv A` is again `(0, 0, 0, 1)` when `A` is
invertible with homogeneous bottom row. -/
theorem npinv_lastRow (A : Matrix (Fin 4) (Fin 4) ℚ) (h : IsUnit A.det)
    (hA : ∀ j, A 3 j = if j = 3 then 1 else 0) (j : Fin 4) :
    npinv A 3 j = if j = 3 then 1 else 0 := by
  have hm := mul_npinv A h
  have hrow : (A * npinv A) 3 j = (1 : Matrix (Fin 4) (Fin 4) ℚ) 3 j := by
    rw [hm]
  rw [Matrix.mul_apply, Fin.sum_univ_four, hA 0, hA 1, hA 2, hA 3] at hrow
  simp only [show ((0 : Fin 4) = 3) = False by decide,
    show ((1 : Fin 4) = 3) = False by decide,
    show ((2 : Fin 4) = 3) = False by decide,
    show ((3 : Fin 4) = 3) = True by decide, if_true, if_false,
    zero_mul, one_mul, zero_add, add_zero, Matrix.one_apply] at hrow
  rw [hrow]
  by_cases hj : j = 3
  · simp [hj]
  · simp [hj, Ne.symm hj]

/-- A 4-D data grid (3 spatial axes plus a channel axis), modelling a
`numpy` array such as `data.dwi`.  Values outside the declared extents are
irrelevant to every operation below. -/
structure Grid4 where
  nx : ℕ
  ny : ℕ
  nz : ℕ
  nc : ℕ
  val : ℕ → ℕ → ℕ → ℕ → ℚ

/-- A 3-D scalar field, modelling arrays such as `data.b0` or `data.t1`. -/
abbrev Grid3 : Type := ℕ → ℕ → ℕ → ℚ

/-- The in-bounds test of `scipy.interpolate.RegularGridInterpolator`
built over `np.arange` axes (default `bounds_error=True`): each coordinate
must lie in `[0, dim - 1]`. -/
def inGridBounds (g : Grid4) (p : Vec3Q) : Prop :=
  0 ≤ p.1 ∧ p.1 ≤ (g.nx : ℚ) - 1 ∧
  0 ≤ p.2.1 ∧ p.2.1 ≤ (g.ny : ℚ) - 1 ∧
  0 ≤ p.2.2 ∧ p.2.2 ≤ (g.nz : ℚ) - 1

instance (g : Grid4) (p : Vec3Q) : Decidable (inGridBounds g p) := by
  unfold inGridBounds; infer_instance

/-- The lower interpolation index on one axis: the floor of the
coordinate, clipped to `dim - 2` so that the upper boundary point
interpolates inside the last cell (as `scipy` does). -/
def clampIdx (n : ℕ) (x : ℚ) : ℤ := min ⌊x⌋ ((n : ℤ) - 2)

/-- Grid lookup at signed indices (only ever evaluated in range). -/
def gval (g : Grid4) (i j k : ℤ) (c : ℕ) : ℚ :=
  if 0 ≤ i ∧ 0 ≤ j ∧ 0 ≤ k then g.val i.toNat j.toNat k.toNat c else 0

/-- Tri-linear interpolation of one channel of the grid at a continuous
index coordinate, as `RegularGridInterpolator(..., method="linear")`
computes it for an in-bounds query. -/
def interpChannel (g : Grid4) (p : Vec3Q) (c : ℕ) : ℚ :=
  let i := clampIdx g.nx p.1
  let j := clampIdx g.ny p.2.1
  let k := clampIdx g.nz p.2.2
  let tx := p.1 - i
  let ty := p.2.1 - j
  let tz := p.2.2 - k
  (1 - tx) * (1 - ty) * (1 - tz) * gval g i j k c +
  tx * (1 - ty) * (1 - tz) * gval g (i + 1) j k c +
  (1 - tx) * ty * (1 - tz) * gval g i (j + 1) k c +
  (1 - tx) * (1 - ty) * tz * gval g i j (k + 1) c +
  tx * ty * (1 - tz) * gval g (i + 1) (j + 1) k c +
  tx * (1 - ty) * tz * gval g (i + 1) j (k + 1) c +
  (1 - tx) * ty * tz * gval g i (j + 1) (k + 1) c +
  tx * ty * tz * gval g (i + 1) (j + 1) (k + 1) c

/-- `self.interpolator(point)`: the whole channel vector at a continuous
index coordinate, or `none` when the point is out of bounds (the
`ValueError` of `RegularGridInterpolator`). -/
def interp3 (g : Grid4) (p : Vec3Q) : Option (List ℚ) :=
  if inGridBounds g p then some ((List.range g.nc).map (interpChannel g p))
  else none

/-- The Python exceptions that the embedded data-module code can raise. -/
inductive PyError where
  | dataContainerNotLoadable (path filename : String)
  | fileNotFound (filename : String)
  | dwiAlreadyCropped (b maxDeviation : ℚ)
  | dwiAlreadyNormalized
  | unboundLocalWeights
  | valueErrorOutOfBounds
  deriving DecidableEq

/-- `RawData`: the attributes filled in by `DataContainer._retrieve_data`. -/
structure RawData where
  bvals : List ℚ
  bvecs : List Vec3Q
  dwi : Grid4
  t1 : Grid3
  aff : Aff4
  binarymask : Grid3
  b0 : Grid3

/-- The `options` namespace of a `DataContainer`.  `crop_b` and
`crop_max_deviation` are only meaningful once `cropped` is set, exactly as
in the Python object. -/
structure ContainerOptions where
  denoised : Bool
  cropped : Bool
  normalized : Bool
  b0_threshold : ℚ
  crop_b : ℚ
  crop_max_deviation : ℚ

/-- The `DataContainer` object.  The scipy interpolator attribute is not
stored: it is a pure function of `data.dwi` and is re-derived on use. -/
structure DataContainer where
  options : ContainerOptions
  path : String
  data : RawData
  id : String

/-- The parsed contents of one NIfTI file (`nb.load(...)`). -/
structure Nifti where
  grid : Grid4
  affine : Aff4

/-- The reachable file system, mapping absolute file names to parsed
contents; `none` models a `FileNotFoundError` on open. -/
structure FileSystem where
  bvalsFiles : String → Option (List ℚ)
  bvecsFiles : String → Option (List Vec3Q)
  niftiFiles : String → Option Nifti

/-- External library calls `_retrieve_data` makes whose internals are out
of scope (denoising, `median_otsu` mask estimation): each is an opaque
total function supplied by the environment. -/
structure ExternalLib where
  localpca : Grid4 → Grid4
  medianOtsu : Grid4 → Grid3

/-- The file-name dictionary: `bvals`, `bvecs`, `img` and `t1` are always
present; `mask` is optional (`'mask' in file_names`). -/
structure FileNames where
  bvals : String
  bvecs : String
  img : String
  t1 : String
  mask : Option String

/-- `os.path.join(self.path, name)`. -/
def pjoin (path name : String) : String := path ++ "/" ++ name

/-- `path.rstrip(os.path.sep)`: strip trailing separators. -/
def rstripSep (s : String) : String :=
  ⟨(s.data.reverse.dropWhile (· == '/')).reverse⟩

/-- `data.b0 = data.dwi[..., data.bvals < b0_threshold].mean(axis=-1)`:
the mean over the channels whose b-value is below the threshold. -/
def b0Of (g : Grid4) (bvals : List ℚ) (thr : ℚ) : Grid3 :=
  fun x y z =>
    let idxs := (List.range g.nc).filter fun i => decide (bvals.getD i 0 < thr)
    (idxs.map fun i => g.val x y z i).sum / (idxs.length : ℚ)

/-- `DataContainer._retrieve_data`: reads `bvals`, `bvecs`, `img` and `t1`
inside a `try` block that converts a `FileNotFoundError` into a
`DataContainerNotLoadableError`; the optional `mask` file is loaded
OUTSIDE that block, so a missing mask raises a bare `FileNotFoundError`.
`gtab` is omitted (a pure function of `bvals`/`bvecs` never used by the
claims). -/
def retrieve_data (fs : FileSystem) (lib : ExternalLib) (path : String)
    (file_names : FileNames) (denoise : Bool) (b0_threshold : ℚ) :
    Except PyError RawData :=
  match fs.bvalsFiles (pjoin path file_names.bvals) with
  | none => .error (.dataContainerNotLoadable path (pjoin path file_names.bvals))
  | some bvals =>
  match fs.bvecsFiles (pjoin path file_names.bvecs) with
  | none => .error (.dataContainerNotLoadable path (pjoin path file_names.bvecs))
  | some bvecs =>
  match fs.niftiFiles (pjoin path file_names.img) with
  | none => .error (.dataContainerNotLoadable path (pjoin path file_names.img))
  | some img =>
  match fs.niftiFiles (pjoin path file_names.t1) with
  | none => .error (.dataContainerNotLoadable path (pjoin path file_names.t1))
  | some t1 =>
  let dwi0 := img.grid
  let dwi := if denoise then lib.localpca dwi0 else dwi0
  match file_names.mask with
  | some mname =>
    match fs.niftiFiles (pjoin path mname) with
    | none => .error (.fileNotFound (pjoin path mname))
    | some m =>
      .ok { bvals := bvals, bvecs := bvecs, dwi := dwi,
            t1 := fun x y z => t1.grid.val x y z 0, aff := img.affine,
            binarymask := fun x y z => m.grid.val x y z 0,
            b0 := b0Of dwi bvals b0_threshold }
  | none =>
      .ok { bvals := bvals, bvecs := bvecs, dwi := dwi,
            t1 := fun x y z => t1.grid.val x y z 0, aff := img.affine,
            binarymask := lib.medianOtsu dwi,
            b0 := b0Of dwi bvals b0_threshold }

/-- `DataContainer.__init__`: retrieves the data and builds the id; any
error from `_retrieve_data` aborts construction, so no container value
exists on the error path. -/
def mkDataContainer (fs : FileSystem) (lib : ExternalLib) (path : String)
    (file_names : FileNames) (denoise : Bool) (b0_threshold : ℚ) :
    Except PyError DataContainer :=
  let path' := rstripSep path
  (retrieve_data fs lib path' file_names denoise b0_threshold).map fun d =>
    let base := "DataContainer" ++ path'.replace "/" "-" ++ "-b0thr-" ++
      toString b0_threshold
    { options := { denoised := denoise, cropped := false, normalized := false,
                   b0_threshold := b0_threshold, crop_b := 0,
                   crop_max_deviation := 0 },
      path := path', data := d,
      id := if denoise then base ++ "-denoised" else base }

/-- `DataContainer.to_ijk`: RAS+ world points to continuous index
coordinates via the inverse of the image affine.  The method body has no
assignment to `self`, hence the returned container component is the input
container itself. -/
def to_ijk (c : DataContainer) (points : List Vec3Q) :
    List Vec3Q × DataContainer :=
  (points.map (applyAffine (npinv c.data.aff.mat)), c)

/-- `DataContainer.to_ras`: continuous index coordinates to RAS+ world
points via the image affine.  No assignment to `self` occurs. -/
def to_ras (c : DataContainer) (points : List Vec3Q) :
    List Vec3Q × DataContainer :=
  (points.map (applyAffine c.data.aff.mat), c)

/-- The type of a `data.Postprocessing` hook: it receives the raw
interpolated values together with `b0`, `bvecs` and `bvals`. -/
abbrev Postprocessing : Type :=
  List (List ℚ) → Grid3 → List Vec3Q → List ℚ → List (List ℚ)

/-- `DataContainer.get_interpolated_dwi`: converts the points with
`to_ijk`, evaluates the grid interpolator at every converted point
(`ValueError` if any is out of bounds), then optionally applies the
postprocessing hook.  No assignment to `self` occurs. -/
def get_interpolated_dwi (c : DataContainer) (points : List Vec3Q)
    (postprocessing : Option Postprocessing) :
    Except PyError (List (List ℚ)) × DataContainer :=
  let pts := (to_ijk c points).1
  match pts.mapM (interp3 c.data.dwi) with
  | none => (.error .valueErrorOutOfBounds, c)
  | some result =>
    match postprocessing with
    | none => (.ok result, c)
    | some post =>
        (.ok (post result c.data.b0 c.data.bvecs c.data.bvals), c)

/-- `DataContainer.crop`: raises `DWIAlreadyCroppedError` first thing when
already cropped and not ignoring; otherwise keeps exactly the channels
whose b-value deviates from `b_value` by less than `max_deviation`. -/
def crop (c : DataContainer) (b_value max_deviation : ℚ)
    (ignore_already_cropped : Bool) : Except PyError Unit × DataContainer :=
  if c.options.cropped ∧ ¬ignore_already_cropped then
    (.error (.dwiAlreadyCropped c.options.crop_b c.options.crop_max_deviation), c)
  else
    let idxs := (List.range c.data.bvals.length).filter fun i =>
      decide (|c.data.bvals.getD i 0 - b_value| < max_deviation)
    let dwi := c.data.dwi
    let dwi' : Grid4 :=
      { nx := dwi.nx, ny := dwi.ny, nz := dwi.nz, nc := idxs.length,
        val := fun x y z ch => dwi.val x y z (idxs.getD ch 0) }
    (.ok (),
     { c with
       data := { c.data with
         dwi := dwi'
         bvals := idxs.map (c.data.bvals.getD · 0)
         bvecs := idxs.map (c.data.bvecs.getD · (0, 0, 0)) }
       options := { c.options with
         cropped := true
         crop_b := b_value
         crop_max_deviation := max_deviation }
       id := c.id ++ "-cropped[" ++ toString b_value ++ ", " ++
         toString max_deviation ++ "]" })

/-- `np.sum(self.data.dwi > b0)` with `b0 = self.data.b0[..., None]`:
the number of entries of the 4-D array strictly exceeding the `b0` value
of their voxel. -/
def countErroneous (g : Grid4) (b0 : Grid3) : ℕ :=
  ∑ x ∈ Finset.range g.nx, ∑ y ∈ Finset.range g.ny,
    ∑ z ∈ Finset.range g.nz, ∑ ch ∈ Finset.range g.nc,
      if b0 x y z < g.val x y z ch then 1 else 0

/-- `DataContainer.normalize`: refuses cropped then already-normalized
containers; the local `weights` is assigned only inside
`if nb_erroneous_voxels != 0`, so when no voxel exceeds its b0 value the
later `weights / b0` raises an `UnboundLocalError` (a `NameError`).
Otherwise the weights are `min(dwi, b0) / b0` with every non-finite
quotient (exactly the voxels whose b0 is zero, in exact arithmetic) set
to `0`. -/
def normalize (c : DataContainer) : Except PyError Unit × DataContainer :=
  if c.options.cropped then
    (.error (.dwiAlreadyCropped c.options.crop_b c.options.crop_max_deviation), c)
  else if c.options.normalized then
    (.error .dwiAlreadyNormalized, c)
  else
    let g := c.data.dwi
    let b0 := c.data.b0
    if countErroneous g b0 ≠ 0 then
      let w : Grid4 :=
        { g with val := fun x y z ch =>
            if b0 x y z = 0 then 0 else min (g.val x y z ch) (b0 x y z) / b0 x y z }
      (.ok (),
       { c with
         data := { c.data with dwi := w }
         options := { c.options with normalized := true }
         id := c.id ++ "-normalized" })
    else
      (.error .unboundLocalWeights, c)

/-! ### Losses from `src/nn_helper.py` -/

/-- The epsilon of `K.l2_normalize` (TensorFlow `l2_normalize`,
epsilon `1e-12`). -/
noncomputable def kerasEps : ℝ := 1 / 10 ^ 12

/-- `K.l2_normalize(y, axis=-1)`: divide by
`sqrt(max(sum(y**2), epsilon))`. -/
noncomputable def l2_normalize {n : ℕ} (y : Fin n → ℝ) : Fin n → ℝ :=
  fun i => y i / Real.sqrt (max (∑ j, y j ^ 2) kerasEps)

/-- `squared_cosine_proximity_2` from `src/nn_helper.py`:
`- (K.sum(l2(y_true) * l2(y_pred), axis=-1)) ** 2`. -/
noncomputable def squared_cosine_proximity_2 {n : ℕ} (y_true y_pred : Fin n → ℝ) : ℝ :=
  -(∑ i, l2_normalize y_true i * l2_normalize y_pred i) ^ 2

/-- `K.mean(K.square(a), axis=-1)` for a vector of length `n`. -/
noncomputable def kerasMeanSq {n : ℕ} (v : Fin n → ℝ) : ℝ :=
  (∑ i, v i ^ 2) / n

/-- `mse_directionInvariant` from `src/nn_helper.py`:
`K.minimum(K.mean(K.square(y_pred - y_true)), K.mean(K.square(-1 * y_pred - y_true)))`. -/
noncomputable def mse_directionInvariant {n : ℕ} (y_true y_pred : Fin n → ℝ) : ℝ :=
  min (kerasMeanSq fun i => y_pred i - y_true i)
      (kerasMeanSq fun i => (-1) * y_pred i - y_true i)

theorem l2_normalize_neg {n : ℕ} (y : Fin n → ℝ) :
    l2_normalize (fun i => -y i) = fun i => -(l2_normalize y i) := by
  funext i
  simp [l2_normalize, neg_div]

/-! ### The tracking engine, modelled from the spec

`src/tracking.py` and `src/dwi_tools.py` are not among the provided
sources (only their caller `03_ismrm2015.py` is), so the definitions of
this section are modelled from the specification text (sections 3-5 and
4.7 of the spec). -/

/-- A 3-D vector/point with real coordinates. -/
abbrev Vec3R : Type := ℝ × ℝ × ℝ

/-- Dot product of two 3-vectors. -/
def dotR (u v : Vec3R) : ℝ := u.1 * v.1 + u.2.1 * v.2.1 + u.2.2 * v.2.2

/-- Euclidean norm of a 3-vector. -/
noncomputable def normR (v : Vec3R) : ℝ := Real.sqrt (dotR v v)

/-- Scalar multiple of a 3-vector. -/
def smulR (a : ℝ) (v : Vec3R) : Vec3R := (a * v.1, a * v.2.1, a * v.2.2)

/-- Negation of a 3-vector. -/
def negR (v : Vec3R) : Vec3R := (-v.1, -v.2.1, -v.2.2)

/-- Sum of two 3-vectors. -/
def addR (u v : Vec3R) : Vec3R := (u.1 + v.1, u.2.1 + v.2.1, u.2.2 + v.2.2)

/-- Normalisation of a 3-vector to unit length. -/
noncomputable def unitR (v : Vec3R) : Vec3R := smulR (normR v)⁻¹ v

/-- Euclidean distance between two 3-D points. -/
noncomputable def dist3 (p q : Vec3R) : ℝ :=
  Real.sqrt ((p.1 - q.1) ^ 2 + (p.2.1 - q.2.1) ^ 2 + (p.2.2 - q.2.2) ^ 2)

/-- Per-particle termination causes (spec section 7). -/
inductive TerminationCause where
  | OUT_OF_BOUNDS
  | DEGENERATE_DIRECTION
  | LOW_CONFIDENCE
  | OUT_OF_MASK
  | MAX_ITERATIONS
  deriving DecidableEq

/-- Modelled from the spec: the Sign/Direction Resolver of section 4.4
for a particle with an established previous travel direction (the missing
`src/tracking.py` implements it).  If the raw output norm is within
`epsilon` of zero the particle terminates with `DEGENERATE_DIRECTION`;
otherwise the raw output is negated exactly when the dot product of its
normalisation with the previous direction is negative. -/
noncomputable def resolveSign (epsilon : ℝ) (raw prev : Vec3R) :
    Except TerminationCause Vec3R :=
  if normR raw < epsilon then .error .DEGENERATE_DIRECTION
  else if dotR (unitR raw) prev < 0 then .ok (negR raw)
  else .ok raw

/-- Modelled from the spec: sign resolution including the first step
(no prior direction): take the raw output normalised to unit length
as-is (spec section 4.4). -/
noncomputable def resolveDir (epsilon : ℝ) (raw : Vec3R) (prev : Option Vec3R) :
    Except TerminationCause Vec3R :=
  match prev with
  | none =>
      if normR raw < epsilon then .error .DEGENERATE_DIRECTION
      else .ok raw
  | some d => resolveSign epsilon raw d

/-- Modelled from the spec: the immutable `TrackingConfiguration`
(spec section 3). -/
structure TrackingConfiguration where
  stepWidth : ℝ
  maxIterations : ℕ
  threshold : ℝ
  epsilon : ℝ
  windowDepth : ℕ

/-- Modelled from the spec: one particle of the batch (spec section 3).
`window` is the per-particle context window, oldest entry first. -/
structure Particle where
  position : Vec3R
  direction : Option Vec3R
  window : List (List ℝ)
  pathHistory : List Vec3R
  alive : Bool
  age : ℕ
  cause : Option TerminationCause

/-- Modelled from the spec: the read-only environment of a run — the
configuration, the Interpolator (`sample`, `none` signalling an
out-of-bounds query), the Direction Predictor Adapter (`predict`, with
optional continuation probability) and the optional binary mask. -/
structure TrackingEnv where
  cfg : TrackingConfiguration
  sample : Vec3R → Option (List ℝ)
  predict : List (List ℝ) → Vec3R × Option ℝ
  mask : Option (Vec3R → Bool)

/-- Modelled from the spec: pushing a sample into the fixed-depth context
window, evicting the oldest entry once full (spec section 4.2). -/
def pushWindow (depth : ℕ) (w : List (List ℝ)) (s : List ℝ) : List (List ℝ) :=
  let w' := w ++ [s]
  if w'.length ≤ depth then w' else w'.drop (w'.length - depth)

/-- Retire a particle with the given termination cause. -/
def terminateP (p : Particle) (c : TerminationCause) : Particle :=
  { p with alive := false, cause := some c }

/-- Modelled from the spec: one Stepper transition for a particle
(spec section 4.5, steps 1-9).  Non-active particles are untouched
(terminal states are absorbing). -/
noncomputable def stepParticle (env : TrackingEnv) (p : Particle) : Particle :=
  if p.alive = false then p else
  match env.sample p.position with
  | none => terminateP p .OUT_OF_BOUNDS
  | some sig =>
    let w := pushWindow env.cfg.windowDepth p.window sig
    let out := env.predict w
    match resolveDir env.cfg.epsilon out.1 p.direction with
    | .error c => terminateP { p with window := w } c
    | .ok d =>
      let lowConf : Bool :=
        match out.2 with
        | some pr => decide (pr < env.cfg.threshold)
        | none => false
      if lowConf then terminateP { p with window := w } .LOW_CONFIDENCE
      else
        let u := unitR d
        let newpos := addR p.position (smulR env.cfg.stepWidth u)
        let inMask : Bool :=
          match env.mask with
          | some m => m newpos
          | none => true
        if inMask = false then terminateP { p with window := w } .OUT_OF_MASK
        else
          let p' : Particle :=
            { p with
              position := newpos
              direction := some u
              window := w
              pathHistory := p.pathHistory ++ [newpos]
              age := p.age + 1 }
          if env.cfg.maxIterations ≤ p'.age then terminateP p' .MAX_ITERATIONS
          else p'

/-- Modelled from the spec: one Batch Scheduler iteration — every
particle steps independently (spec section 5). -/
noncomputable def stepBatch (env : TrackingEnv) (b : List Particle) : List Particle :=
  b.map (stepParticle env)

/-- Modelled from the spec: the Batch Scheduler driving `n` iterations. -/
noncomputable def runBatch (env : TrackingEnv) : ℕ → List Particle → List Particle
  | 0, b => b
  | n + 1, b => runBatch env n (stepBatch env b)

/-- Number of active particles of a batch. -/
def aliveCount (b : List Particle) : ℕ := (b.filter (·.alive)).length

/-- Modelled from the spec: the particle created at seed time — position
at the seed, no established direction yet, empty history, alive, age 0
(spec section 3, lifecycles). -/
def initParticle (seed : Vec3R) : Particle :=
  { position := seed, direction := none, window := [], pathHistory := []
    alive := true, age := 0, cause := none }

/-- Modelled from the spec: the reverse pass runs the same seeds under
the geometrically opposite initial condition, not a separately trained
model (spec section 4.6) — the predictor's raw direction is mirrored. -/
def reverseEnv (env : TrackingEnv) : TrackingEnv :=
  { env with predict := fun w => (negR (env.predict w).1, (env.predict w).2) }

/-- Modelled from the spec: the Streamline Assembler (spec section 4.7):
reverse-pass path reversed, then the seed, then the forward-pass path,
paired by seed index. -/
def assemble (seeds : List Vec3R) (bf br : List Particle) : List (List Vec3R) :=
  (seeds.zip (bf.zip br)).map fun s =>
    s.2.2.pathHistory.reverse ++ s.1 :: s.2.1.pathHistory

/-! ### Relational form of the Stepper, for the determinism claim -/

/-- The low-confidence test of spec section 4.5, step 5, as a
proposition: a continuation probability is present and falls below the
configured threshold. -/
def LowConfidence (threshold : ℝ) (prob : Option ℝ) : Prop :=
  ∃ pr, prob = some pr ∧ pr < threshold

/-- The mask test of spec section 4.5, step 6, as a proposition: an
external mask is supplied and the new position maps to a zero mask
value. -/
def OutOfMask (env : TrackingEnv) (pos : Vec3R) : Prop :=
  ∃ m, env.mask = some m ∧ m pos = false

/-- Modelled from the spec: the per-particle transition system of spec
section 4.5, written as a step relation with one constructor per listed
outcome.  `stepParticle` is its functional counterpart. -/
inductive StepR (env : TrackingEnv) : Particle → Particle → Prop where
  | retired (p : Particle) :
      p.alive = false → StepR env p p
  | outOfBounds (p : Particle) :
      p.alive = true → env.sample p.position = none →
      StepR env p (terminateP p .OUT_OF_BOUNDS)
  | resolveFailed (p : Particle) (sig : List ℝ) (c : TerminationCause) :
      p.alive = true → env.sample p.position = some sig →
      resolveDir env.cfg.epsilon
        (env.predict (pushWindow env.cfg.windowDepth p.window sig)).1
        p.direction = .error c →
      StepR env p
        (terminateP { p with window := pushWindow env.cfg.windowDepth p.window sig } c)
  | lowConfidence (p : Particle) (sig : List ℝ) (d : Vec3R) :
      p.alive = true → env.sample p.position = some sig →
      resolveDir env.cfg.epsilon
        (env.predict (pushWindow env.cfg.windowDepth p.window sig)).1
        p.direction = .ok d →
      LowConfidence env.cfg.threshold
        (env.predict (pushWindow env.cfg.windowDepth p.window sig)).2 →
      StepR env p
        (terminateP { p with window := pushWindow env.cfg.windowDepth p.window sig }
          .LOW_CONFIDENCE)
  | outOfMask (p : Particle) (sig : List ℝ) (d : Vec3R) :
      p.alive = true → env.sample p.position = some sig →
      resolveDir env.cfg.epsilon
        (env.predict (pushWindow env.cfg.windowDepth p.window sig)).1
        p.direction = .ok d →
      ¬LowConfidence env.cfg.threshold
        (env.predict (pushWindow env.cfg.windowDepth p.window sig)).2 →
      OutOfMask env (addR p.position (smulR env.cfg.stepWidth (unitR d))) →
      StepR env p
        (terminateP { p with window := pushWindow env.cfg.windowDepth p.window sig }
          .OUT_OF_MASK)
  | advance (p : Particle) (sig : List ℝ) (d : Vec3R) :
      p.alive = true → env.sample p.position = some sig →
      resolveDir env.cfg.epsilon
        (env.predict (pushWindow env.cfg.windowDepth p.window sig)).1
        p.direction = .ok d →
      ¬LowConfidence env.cfg.threshold
        (env.predict (pushWindow env.cfg.windowDepth p.window sig)).2 →
      ¬OutOfMask env (addR p.position (smulR env.cfg.stepWidth (unitR d))) →
      StepR env p
        (let newpos := addR p.position (smulR env.cfg.stepWidth (unitR d))
         let p' : Particle :=
           { p with
             position := newpos
             direction := some (unitR d)
             window := pushWindow env.cfg.windowDepth p.window sig
             pathHistory := p.pathHistory ++ [newpos]
             age := p.age + 1 }
         if env.cfg.maxIterations ≤ p'.age then terminateP p' .MAX_ITERATIONS
         else p')

/-- Modelled from the spec: `n` scheduler iterations of the step
relation over a whole batch. -/
inductive RunR (env : TrackingEnv) : ℕ → List Particle → List Particle → Prop where
  | zero (b : List Particle) : RunR env 0 b b
  | succ (n : ℕ) (b b1 b2 : List Particle) :
      List.Forall₂ (StepR env) b b1 → RunR env n b1 b2 → RunR env (n + 1) b b2

/-- Modelled from the spec: a complete engine invocation — a forward run
and a reverse run over the seeds, assembled into streamlines
(spec sections 4.6, 4.7). -/
def EngineRun (env : TrackingEnv) (n : ℕ)
    (seeds : List Vec3R) (out : List (List Vec3R)) : Prop :=
  ∃ bf br,
    RunR env n (seeds.map initParticle) bf ∧
    RunR (reverseEnv env) n (seeds.map initParticle) br ∧
    out = assemble seeds bf br

/-! ### Streamline length filters, modelled from the spec -/

/-- Modelled from the spec: the approximate arc length of a streamline —
the sum of consecutive point distances (spec section 4.7; the missing
`src/dwi_tools.py` implements the filters). -/
noncomputable def arcLength : List Vec3R → ℝ
  | [] => 0
  | [_] => 0
  | p :: q :: rest => dist3 p q + arcLength (q :: rest)

/-- Modelled from the spec: `dwi_tools.filterStreamlinesByLength` —
discard every streamline whose arc length is below `minLength`. -/
noncomputable def filterStreamlinesByLength (streamlines : List (List Vec3R))
    (minLength : ℝ) : List (List Vec3R) :=
  streamlines.filter fun s => decide (minLength ≤ arcLength s)

/-- Modelled from the spec: `dwi_tools.filterStreamlinesByMaxLength` —
discard every streamline whose arc length is above `maxLength`. -/
noncomputable def filterStreamlinesByMaxLength (streamlines : List (List Vec3R))
    (maxLength : ℝ) : List (List Vec3R) :=
  streamlines.filter fun s => decide (arcLength s ≤ maxLength)

/-! ### Shared helper lemmas and concrete test fixtures -/

theorem npinv_one : npinv (1 : Matrix (Fin 4) (Fin 4) ℚ) = 1 := by
  simp [npinv]

/-- The identity affine, with the homogeneous bottom row. -/
def idAff : Aff4 :=
  ⟨1, by intro j; fin_cases j <;> simp [Matrix.one_apply]⟩

/-- A concrete 2x2x2 single-channel grid. -/
def gridTest : Grid4 :=
  { nx := 2, ny := 2, nz := 2, nc := 1
    val := fun x y z _ => (x : ℚ) + 2 * y + 4 * z }

/-- A concrete `RawData` fixture. -/
def rawTest : RawData :=
  { bvals := [0], bvecs := [(0, 0, 0)], dwi := gridTest
    t1 := fun _ _ _ => 0, aff := idAff, binarymask := fun _ _ _ => 1
    b0 := fun _ _ _ => 10 }

/-- A concrete, freshly loaded `DataContainer` fixture. -/
def containerTest : DataContainer :=
  { options := { denoised := false, cropped := false, normalized := false
                 b0_threshold := 10, crop_b := 0, crop_max_deviation := 0 }
    path := "data", data := rawTest, id := "test" }

/-- The `containerTest` fixture after a crop has been recorded. -/
def containerCropped : DataContainer :=
  { containerTest with
    options := { containerTest.options with cropped := true } }

/-! ### Claim theorems -/

/-- C2: the orientation-invariant training losses are invariant under
negation of either argument: `squared_cosine_proximity_2` is unchanged
when `y_pred` or `y_true` is negated, and `mse_directionInvariant` is
unchanged when `y_pred` is negated. -/
theorem C2_losses_sign_invariant {n : ℕ} (y_true y_pred : Fin n → ℝ) :
    squared_cosine_proximity_2 y_true y_pred
      = squared_cosine_proximity_2 y_true (fun i => -y_pred i) ∧
    squared_cosine_proximity_2 y_true y_pred
      = squared_cosine_proximity_2 (fun i => -y_true i) y_pred ∧
    mse_directionInvariant y_true y_pred
      = mse_directionInvariant y_true (fun i => -y_pred i) := by
  refine ⟨?_, ?_, ?_⟩
  · simp only [squared_cosine_proximity_2, l2_normalize_neg, mul_neg,
      Finset.sum_neg_distrib, neg_sq]
  · simp only [squared_cosine_proximity_2, l2_normalize_neg, neg_mul,
      Finset.sum_neg_distrib, neg_sq]
  · have f1 : (fun i => (-1 : ℝ) * y_pred i - y_true i) = fun i => -y_pred i - y_true i := by
      funext i; ring
    have f2 : (fun i => (-1 : ℝ) * -y_pred i - y_true i) = fun i => y_pred i - y_true i := by
      funext i; ring
    simp only [mse_directionInvariant]
    rw [f1, f2, min_comm]

/-- C10: for every point array and every `DataContainer` whose affine is
invertible, `to_ras` and `to_ijk` are mutually inverse, both preserve the
shape (length) of the point array, and neither call modifies the
container. -/
theorem C10_coordinate_roundtrip (c : DataContainer) (points : List Vec3Q)
    (h : IsUnit c.data.aff.mat.det) :
    (to_ras c (to_ijk c points).1).1 = points ∧
    (to_ijk c (to_ras c points).1).1 = points ∧
    (to_ijk c points).1.length = points.length ∧
    (to_ras c points).1.length = points.length ∧
    (to_ijk c points).2 = c ∧ (to_ras c points).2 = c := by
  set A := c.data.aff.mat with hA
  refine ⟨?_, ?_, by simp [to_ijk], by simp [to_ras], rfl, rfl⟩
  · rw [to_ijk, to_ras]
    simp only [List.map_map]
    conv_rhs => rw [← List.map_id points]
    refine List.map_congr_left fun p _ => ?_
    show applyAffine A (applyAffine (npinv A) p) = p
    rw [applyAffine_applyAffine A (npinv A) (npinv_lastRow A h c.data.aff.lastRow) p,
      mul_npinv A h, applyAffine_one]
  · rw [to_ras, to_ijk]
    simp only [List.map_map]
    conv_rhs => rw [← List.map_id points]
    refine List.map_congr_left fun p _ => ?_
    show applyAffine (npinv A) (applyAffine A p) = p
    rw [applyAffine_applyAffine (npinv A) A c.data.aff.lastRow p,
      npinv_mul A h, applyAffine_one]

/-- Witness for C10 at the concrete fixture: the identity affine is
invertible and the round trip restores a concrete point list. -/
theorem C10_coordinate_roundtrip_witness :
    IsUnit containerTest.data.aff.mat.det ∧
    (to_ras containerTest (to_ijk containerTest [((1 : ℚ), 2, 3)]).1).1
      = [((1 : ℚ), 2, 3)] := by
  have h : IsUnit containerTest.data.aff.mat.det := by
    have : containerTest.data.aff.mat = 1 := rfl
    rw [this, Matrix.det_one]
    exact isUnit_one
  exact ⟨h, (C10_coordinate_roundtrip containerTest [((1 : ℚ), 2, 3)] h).1⟩

/-- C5: `crop` raises `DWIAlreadyCroppedError` on an already-cropped
container unless `ignore_already_cropped` is set; `normalize` raises
`DWIAlreadyCroppedError` on a cropped container and
`DWIAlreadyNormalizedError` on an already-normalized one; on each error
path the whole container (data and flags) is unchanged, and the
`cropped`/`normalized` flags are one-shot: no call ever resets them. -/
theorem C5_oneshot_flags (c : DataContainer) (b d : ℚ) :
    (c.options.cropped = true →
      crop c b d false
        = (.error (.dwiAlreadyCropped c.options.crop_b c.options.crop_max_deviation), c)) ∧
    (c.options.cropped = true →
      normalize c
        = (.error (.dwiAlreadyCropped c.options.crop_b c.options.crop_max_deviation), c)) ∧
    (c.options.cropped = false → c.options.normalized = true →
      normalize c = (.error .dwiAlreadyNormalized, c)) ∧
    (∀ ig, c.options.cropped = true → ((crop c b d ig).2).options.cropped = true) ∧
    (∀ ig, c.options.normalized = true → ((crop c b d ig).2).options.normalized = true) ∧
    (c.options.cropped = true → ((normalize c).2).options.cropped = true) ∧
    (c.options.normalized = true → ((normalize c).2).options.normalized = true) := by
  refine ⟨?_, ?_, ?_, ?_, ?_, ?_, ?_⟩
  · intro h
    simp [crop, h]
  · intro h
    simp [normalize, h]
  · intro h h'
    simp [normalize, h, h']
  · intro ig h
    rcases ig with _ | _
    · simp [crop, h]
    · simp [crop, h]
  · intro ig h
    rcases ig with _ | _
    · by_cases hc : c.options.cropped <;> simp [crop, hc, h]
    · by_cases hc : c.options.cropped <;> simp [crop, hc, h]
  · intro h
    simp [normalize, h]
  · intro h
    by_cases hc : c.options.cropped
    · simp [normalize, hc, h]
    · by_cases he : countErroneous c.data.dwi c.data.b0 ≠ 0 <;>
        simp [normalize, hc, h, he]

/-- Witness for C5 at a concrete already-cropped container: `crop`
fails with `DWIAlreadyCroppedError` and hands back the container
unchanged. -/
theorem C5_oneshot_flags_witness :
    crop containerCropped 1000 100 false
      = (.error (.dwiAlreadyCropped 0 0), containerCropped) :=
  (C5_oneshot_flags containerCropped 1000 100).1 rfl

/-- C9: on an un-cropped, un-normalized container, `normalize` succeeds
exactly when some dwi entry strictly exceeds its voxel's b0 value, and
then replaces every dwi entry with `min(dwi, b0) / b0` (quotients that
would be non-finite, i.e. those with a zero b0, set to 0); when no entry
exceeds b0, the local `weights` variable is never assigned and the call
fails with the unhandled `UnboundLocalError`/`NameError`, leaving the
container unchanged. -/
theorem C9_normalize_unbound_local (c : DataContainer)
    (hc : c.options.cropped = false) (hn : c.options.normalized = false) :
    (countErroneous c.data.dwi c.data.b0 ≠ 0 →
      (normalize c).1 = .ok () ∧
      ((normalize c).2).options.normalized = true ∧
      ∀ x y z ch, ((normalize c).2).data.dwi.val x y z ch =
        if c.data.b0 x y z = 0 then 0
        else min (c.data.dwi.val x y z ch) (c.data.b0 x y z) / c.data.b0 x y z) ∧
    (countErroneous c.data.dwi c.data.b0 = 0 →
      (normalize c).1 = .error .unboundLocalWeights ∧ (normalize c).2 = c) := by
  constructor
  · intro he
    refine ⟨?_, ?_, fun x y z ch => ?_⟩ <;> simp [normalize, hc, hn, he]
  · intro he
    constructor <;> simp [normalize, hc, hn, he]

/-- Witness for C9 at the concrete fixture, whose dwi values never exceed
b0: `normalize` hits the unassigned-`weights` path. -/
theorem C9_normalize_unbound_local_witness :
    (normalize containerTest).1 = .error .unboundLocalWeights ∧
    (normalize containerTest).2 = containerTest :=
  (C9_normalize_unbound_local containerTest rfl rfl).2 (by
    norm_num [countErroneous, containerTest, rawTest, gridTest,
      Finset.sum_range_succ]
    refine ⟨⟨?_, ?_⟩, ?_, ?_⟩ <;>
      · rw [Finset.filter_eq_empty_iff]
        intro x hx
        rw [Finset.mem_range] at hx
        interval_cases x <;> norm_num)

/-- A concrete NIfTI file fixture. -/
def niftiTest : Nifti := { grid := gridTest, affine := idAff }

/-- A file system in which `bvals`, `bvecs`, the DWI image and the T1
image exist under `data/`, but the optional mask file does not. -/
def fsNoMask : FileSystem :=
  { bvalsFiles := fun n => if n = "data/bvals" then some [0] else none
    bvecsFiles := fun n => if n = "data/bvecs" then some [(0, 0, 0)] else none
    niftiFiles := fun n =>
      if n = "data/data.nii.gz" ∨ n = "data/T1.nii.gz" then some niftiTest
      else none }

/-- Trivial external-library behaviour for the fixtures. -/
def libTest : ExternalLib :=
  { localpca := fun g => g, medianOtsu := fun _ => fun _ _ _ => 1 }

/-- File names that do include the optional mask entry. -/
def namesWithMask : FileNames :=
  { bvals := "bvals", bvecs := "bvecs", img := "data.nii.gz"
    t1 := "T1.nii.gz", mask := some "mask.nii.gz" }

/-- C6 (failing input): constructing a `DataContainer` whose `mask` file
name cannot be found aborts with a bare `FileNotFoundError`, NOT with the
`DataContainerNotLoadableError` that the claim (and the function's own
docstring) promises for every missing file: the mask is loaded outside
the `try` block of `_retrieve_data`.  No container is returned. -/
theorem C6_missing_mask_uncaught :
    mkDataContainer fsNoMask libTest "data" namesWithMask false 10
      = .error (.fileNotFound "data/mask.nii.gz") := by
  rfl

/-- Evaluating the interpolator over a list of in-bounds points succeeds
pointwise. -/
theorem mapM_interp3 (g : Grid4) (l : List Vec3Q)
    (h : ∀ q ∈ l, inGridBounds g q) :
    l.mapM (interp3 g)
      = some (l.map fun q => (List.range g.nc).map (interpChannel g q)) := by
  induction l with
  | nil => rfl
  | cons p l ih =>
    have hp : inGridBounds g p := h p (List.mem_cons_self p l)
    have hl : ∀ q ∈ l, inGridBounds g q := fun q hq => h q (List.mem_cons_of_mem p hq)
    rw [List.mapM_cons, ih hl]
    simp [interp3, hp]

/-- C1: `get_interpolated_dwi` first converts the RAS+ points to
continuous index coordinates with `to_ijk` and returns the tri-linear
interpolation of the DWI grid at those coordinates; a supplied
postprocessing hook is applied to the raw interpolated values (together
with `b0`, `bvecs`, `bvals`) before returning; and the call mutates
neither the container nor the volume data (the returned container is the
input one, its `data.dwi` included). -/
theorem C1_interpolation_contract (c : DataContainer) (points : List Vec3Q)
    (post : Postprocessing)
    (h : ∀ q ∈ (to_ijk c points).1, inGridBounds c.data.dwi q) :
    (get_interpolated_dwi c points none).1 =
      .ok (((to_ijk c points).1).map fun q =>
        (List.range c.data.dwi.nc).map (interpChannel c.data.dwi q)) ∧
    (get_interpolated_dwi c points (some post)).1 =
      .ok (post
        (((to_ijk c points).1).map fun q =>
          (List.range c.data.dwi.nc).map (interpChannel c.data.dwi q))
        c.data.b0 c.data.bvecs c.data.bvals) ∧
    (get_interpolated_dwi c points none).2 = c ∧
    (get_interpolated_dwi c points (some post)).2 = c := by
  have hm : List.mapM.loop (interp3 c.data.dwi) (to_ijk c points).1 []
      = some (((to_ijk c points).1).map fun q =>
          (List.range c.data.dwi.nc).map (interpChannel c.data.dwi q)) :=
    mapM_interp3 c.data.dwi (to_ijk c points).1 h
  refine ⟨?_, ?_, ?_, ?_⟩ <;> simp [get_interpolated_dwi, hm]

/-- Witness for C1 at the concrete fixture: the point `(1/2, 0, 0)` maps
in bounds and the interpolated values are returned. -/
theorem C1_interpolation_contract_witness :
    (∀ q ∈ (to_ijk containerTest [((1 : ℚ)/2, 0, 0)]).1,
      inGridBounds containerTest.data.dwi q) ∧
    (get_interpolated_dwi containerTest [((1 : ℚ)/2, 0, 0)] none).1 =
      .ok (((to_ijk containerTest [((1 : ℚ)/2, 0, 0)]).1).map fun q =>
        (List.range containerTest.data.dwi.nc).map
          (interpChannel containerTest.data.dwi q)) := by
  have e : (to_ijk containerTest [((1 : ℚ)/2, 0, 0)]).1 = [((1 : ℚ)/2, 0, 0)] := by
    show [((1 : ℚ)/2, 0, 0)].map (applyAffine (npinv containerTest.data.aff.mat)) = _
    rw [show containerTest.data.aff.mat = 1 from rfl, npinv_one]
    simp [applyAffine_one]
  have h : ∀ q ∈ (to_ijk containerTest [((1 : ℚ)/2, 0, 0)]).1,
      inGridBounds containerTest.data.dwi q := by
    rw [e]
    intro q hq
    rw [List.mem_singleton] at hq
    subst hq
    refine ⟨by norm_num, ?_, by norm_num, ?_, by norm_num, ?_⟩ <;>
      · show _ ≤ ((gridTest.nx : ℚ) - 1)
        norm_num [gridTest]
  exact ⟨h, (C1_interpolation_contract containerTest [((1 : ℚ)/2, 0, 0)]
    (fun r _ _ _ => r) h).1⟩

/-- C3: for a particle with an established previous direction, sign
resolution terminates with `DEGENERATE_DIRECTION` whenever the raw output
norm is within epsilon of zero (no normalisation of the near-zero vector
is performed), and otherwise negates the raw output exactly when the dot
product of the normalised raw output with the previous direction is
negative; in the Stepper a resolution failure retires the particle with
that cause before any position update. -/
theorem C3_sign_resolution (epsilon : ℝ) (raw prev : Vec3R) (heps : 0 < epsilon) :
    (normR raw < epsilon →
      resolveSign epsilon raw prev = .error .DEGENERATE_DIRECTION) ∧
    (epsilon ≤ normR raw →
      ((resolveSign epsilon raw prev = .ok (negR raw) ↔
          dotR (unitR raw) prev < 0) ∧
       (resolveSign epsilon raw prev = .ok raw ↔
          ¬dotR (unitR raw) prev < 0))) ∧
    (∀ (env : TrackingEnv) (p : Particle) (sig : List ℝ),
      p.alive = true → env.sample p.position = some sig →
      resolveDir env.cfg.epsilon
        (env.predict (pushWindow env.cfg.windowDepth p.window sig)).1
        p.direction = .error .DEGENERATE_DIRECTION →
      (stepParticle env p).alive = false ∧
      (stepParticle env p).cause = some .DEGENERATE_DIRECTION ∧
      (stepParticle env p).position = p.position) := by
  refine ⟨?_, ?_, ?_⟩
  · intro h
    rw [resolveSign, if_pos h]
  · intro h
    have hnlt : ¬normR raw < epsilon := not_lt.mpr h
    have hpos : 0 < normR raw := lt_of_lt_of_le heps h
    have hdotpos : 0 < dotR raw raw := by
      have := Real.sqrt_pos.mp (by rw [← normR]; exact hpos)
      exact this
    have hne : negR raw ≠ raw := by
      intro he
      have e1 : -raw.1 = raw.1 := congrArg Prod.fst he
      have e2 : -raw.2.1 = raw.2.1 := congrArg (fun v => v.2.1) he
      have e3 : -raw.2.2 = raw.2.2 := congrArg (fun v => v.2.2) he
      have z1 : raw.1 = 0 := by linarith
      have z2 : raw.2.1 = 0 := by linarith
      have z3 : raw.2.2 = 0 := by linarith
      rw [dotR, z1, z2, z3] at hdotpos
      norm_num at hdotpos
    by_cases hdot : dotR (unitR raw) prev < 0
    · rw [resolveSign, if_neg hnlt, if_pos hdot]
      constructor
      · simp [hdot]
      · simp [hdot, hne]
    · rw [resolveSign, if_neg hnlt, if_neg hdot]
      constructor
      · simp only [Except.ok.injEq]
        exact ⟨fun he => absurd he.symm hne, fun hc => absurd hc hdot⟩
      · simp [hdot]
  · intro env p sig halive hsample hres
    refine ⟨?_, ?_, ?_⟩ <;> simp [stepParticle, halive, hsample, hres, terminateP]

/-- Witness for C3 at a concrete raw output of norm 2 and an opposed
previous direction: the raw output is negated. -/
theorem C3_sign_resolution_witness :
    resolveSign 1 ((2 : ℝ), 0, 0) (-1, 0, 0) = .ok (negR ((2 : ℝ), 0, 0)) := by
  have hn : normR ((2 : ℝ), 0, 0) = 2 := by
    rw [normR, show dotR ((2 : ℝ), 0, 0) ((2 : ℝ), 0, 0) = 4 by norm_num [dotR],
      show (4 : ℝ) = 2 ^ 2 by norm_num, Real.sqrt_sq (by norm_num : (0 : ℝ) ≤ 2)]
  have h1 : (1 : ℝ) ≤ normR ((2 : ℝ), 0, 0) := by rw [hn]; norm_num
  have hu : unitR ((2 : ℝ), 0, 0) = ((1 : ℝ), 0, 0) := by
    rw [unitR, hn]
    norm_num [smulR, Prod.mk.injEq]
  have hdot : dotR (unitR ((2 : ℝ), 0, 0)) (-1, 0, 0) < 0 := by
    rw [hu]
    norm_num [dotR]
  exact ((C3_sign_resolution 1 ((2 : ℝ), 0, 0) (-1, 0, 0) one_pos).2.1 h1).1.mpr hdot

/-- The spec's length-filter example streamline of arc length 5. -/
def sl5 : List Vec3R := [(0, 0, 0), (5, 0, 0)]

/-- The spec's length-filter example streamline of arc length 25. -/
def sl25 : List Vec3R := [(0, 0, 0), (25, 0, 0)]

/-- The spec's length-filter example streamline of arc length 250. -/
def sl250 : List Vec3R := [(0, 0, 0), (250, 0, 0)]

theorem arcLength_axis (a : ℝ) (ha : 0 ≤ a) :
    arcLength [((0 : ℝ), 0, 0), (a, 0, 0)] = a := by
  show dist3 ((0 : ℝ), 0, 0) (a, 0, 0) + arcLength [((a : ℝ), 0, 0)] = a
  rw [arcLength, dist3]
  norm_num
  exact Real.sqrt_sq ha

/-- C4: the minimum-length filter at 20 followed by the maximum-length
filter at 200 retains exactly the streamlines whose arc length lies in
`[20, 200]`; on the spec's example of arc lengths 5, 25 and 250 only the
25-unit streamline survives. -/
theorem C4_length_filters :
    (∀ (streamlines : List (List Vec3R)) (s : List Vec3R),
      s ∈ filterStreamlinesByMaxLength
            (filterStreamlinesByLength streamlines 20) 200 ↔
        s ∈ streamlines ∧ 20 ≤ arcLength s ∧ arcLength s ≤ 200) ∧
    filterStreamlinesByMaxLength
      (filterStreamlinesByLength [sl5, sl25, sl250] 20) 200 = [sl25] := by
  constructor
  · intro streamlines s
    simp only [filterStreamlinesByMaxLength, filterStreamlinesByLength,
      List.mem_filter, decide_eq_true_eq]
    tauto
  · have h5 : arcLength sl5 = 5 := arcLength_axis 5 (by norm_num)
    have h25 : arcLength sl25 = 25 := arcLength_axis 25 (by norm_num)
    have h250 : arcLength sl250 = 250 := arcLength_axis 250 (by norm_num)
    have d5 : decide ((20 : ℝ) ≤ arcLength sl5) = false :=
      decide_eq_false (by rw [h5]; norm_num)
    have d25 : decide ((20 : ℝ) ≤ arcLength sl25) = true :=
      decide_eq_true (by rw [h25]; norm_num)
    have d250 : decide ((20 : ℝ) ≤ arcLength sl250) = true :=
      decide_eq_true (by rw [h250]; norm_num)
    have e25 : decide (arcLength sl25 ≤ (200 : ℝ)) = true :=
      decide_eq_true (by rw [h25]; norm_num)
    have e250 : decide (arcLength sl250 ≤ (200 : ℝ)) = false :=
      decide_eq_false (by rw [h250]; norm_num)
    have hinner : filterStreamlinesByLength [sl5, sl25, sl250] 20 = [sl25, sl250] := by
      simp only [filterStreamlinesByLength, List.filter_cons, List.filter_nil,
        d5, d25, d250]
      rfl
    rw [hinner]
    simp only [filterStreamlinesByMaxLength, List.filter_cons, List.filter_nil,
      e25, e250]
    rfl

/-! ### Determinism and boundedness of the engine -/

/-- The step relation is deterministic: the guards of its constructors
are mutually exclusive. -/
theorem stepR_deterministic (env : TrackingEnv) (p q r : Particle)
    (h1 : StepR env p q) (h2 : StepR env p r) : q = r := by
  cases h1 <;> cases h2 <;> simp_all

theorem forall2_stepR_deterministic (env : TrackingEnv) :
    ∀ {b b1 b2 : List Particle}, List.Forall₂ (StepR env) b b1 →
      List.Forall₂ (StepR env) b b2 → b1 = b2 := by
  intro b b1 b2 h1
  induction h1 generalizing b2 with
  | nil => intro h2; cases h2; rfl
  | cons hpq _ ih =>
    intro h2
    cases h2 with
    | cons hpr htail2 =>
      rw [stepR_deterministic env _ _ _ hpq hpr, ih htail2]

theorem runR_deterministic (env : TrackingEnv) :
    ∀ {n : ℕ} {b c1 c2 : List Particle}, RunR env n b c1 → RunR env n b c2 →
      c1 = c2 := by
  intro n b c1 c2 h1
  induction h1 generalizing c2 with
  | zero b => intro h2; cases h2; rfl
  | succ n b b1 b2 hstep _ ih =>
    intro h2
    cases h2 with
    | succ _ _ b1' _ hstep' hrun' =>
      have e : b1 = b1' := forall2_stepR_deterministic env hstep hstep'
      subst e
      exact ih hrun'

/-- C7: for a fixed seed set, configuration and deterministic predictor
environment, any two complete engine invocations produce identical
collections of streamlines. -/
theorem C7_engine_deterministic (env : TrackingEnv) (n : ℕ)
    (seeds : List Vec3R) (out1 out2 : List (List Vec3R))
    (h1 : EngineRun env n seeds out1) (h2 : EngineRun env n seeds out2) :
    out1 = out2 := by
  obtain ⟨bf1, br1, hf1, hr1, ho1⟩ := h1
  obtain ⟨bf2, br2, hf2, hr2, ho2⟩ := h2
  rw [ho1, ho2, runR_deterministic env hf1 hf2, runR_deterministic _ hr1 hr2]

/-- A concrete tracking environment fixture. -/
def envTest : TrackingEnv :=
  { cfg := { stepWidth := 0, maxIterations := 0, threshold := 0, epsilon := 0
             windowDepth := 1 }
    sample := fun _ => none
    predict := fun _ => ((0, 0, 0), none)
    mask := none }

/-- Witness for C7: two zero-iteration engine runs from the same seed
produce the same output. -/
theorem C7_engine_deterministic_witness :
    assemble [((0 : ℝ), 0, 0)] ([((0 : ℝ), 0, 0)].map initParticle)
        ([((0 : ℝ), 0, 0)].map initParticle)
      = assemble [((0 : ℝ), 0, 0)] ([((0 : ℝ), 0, 0)].map initParticle)
        ([((0 : ℝ), 0, 0)].map initParticle) :=
  C7_engine_deterministic envTest 0 [((0 : ℝ), 0, 0)] _ _
    ⟨_, _, RunR.zero _, RunR.zero _, rfl⟩
    ⟨_, _, RunR.zero _, RunR.zero _, rfl⟩

/-- A retired particle is untouched by the Stepper. -/
theorem stepParticle_of_not_alive (env : TrackingEnv) (p : Particle)
    (h : p.alive = false) : stepParticle env p = p := by
  simp [stepParticle, h]

/-- The Stepper never revives a particle. -/
theorem stepParticle_alive_mono (env : TrackingEnv) (p : Particle)
    (h : (stepParticle env p).alive = true) : p.alive = true := by
  cases hp : p.alive with
  | true => rfl
  | false =>
    rw [stepParticle_of_not_alive env p hp, hp] at h
    exact absurd h (by simp)

/-- One step increments a particle age by at most one. -/
theorem stepParticle_age_le (env : TrackingEnv) (p : Particle) :
    (stepParticle env p).age ≤ p.age + 1 := by
  unfold stepParticle
  dsimp only
  repeat' split
  all_goals try simp only [terminateP]
  all_goals omega

/-- A particle still active after a step is below the iteration budget. -/
theorem stepParticle_alive_age_lt (env : TrackingEnv) (p : Particle) :
    (stepParticle env p).alive = false ∨
    (stepParticle env p).age < env.cfg.maxIterations := by
  unfold stepParticle
  dsimp only
  split
  · rename_i h
    exact Or.inl h
  · repeat' split
    all_goals first
      | exact Or.inl rfl
      | (right; dsimp only; omega)

theorem aliveCount_stepBatch_le (env : TrackingEnv) (b : List Particle) :
    aliveCount (stepBatch env b) ≤ aliveCount b := by
  induction b with
  | nil => exact Nat.le_refl _
  | cons p t ih =>
    have hstep : stepBatch env (p :: t) = stepParticle env p :: stepBatch env t := rfl
    rw [hstep]
    unfold aliveCount
    rw [List.filter_cons, List.filter_cons]
    by_cases hp : (stepParticle env p).alive = true
    · have hpa : p.alive = true := stepParticle_alive_mono env p hp
      rw [if_pos hp, if_pos hpa]
      simp only [List.length_cons]
      exact Nat.succ_le_succ ih
    · rw [if_neg hp]
      by_cases hpa : p.alive = true
      · rw [if_pos hpa]
        simp only [List.length_cons]
        exact Nat.le_succ_of_le ih
      · rw [if_neg hpa]
        exact ih

theorem stepBatch_getD (env : TrackingEnv) (b : List Particle) (i : ℕ)
    (d : Particle) :
    (stepBatch env b).getD i d
      = if i < b.length then stepParticle env (b.getD i d) else d := by
  induction b generalizing i with
  | nil => simp [stepBatch]
  | cons p t ih =>
    cases i with
    | zero => simp [stepBatch]
    | succ m =>
      have ihm := ih m
      simp only [stepBatch] at ihm ⊢
      simp only [List.map_cons, List.getD_cons_succ, List.length_cons]
      rw [ihm]
      by_cases h : m < t.length
      · rw [if_pos h, if_pos (Nat.succ_lt_succ h)]
      · rw [if_neg h, if_neg (fun hc => h (Nat.lt_of_succ_lt_succ hc))]

theorem runBatch_length (env : TrackingEnv) (n : ℕ) (b : List Particle) :
    (runBatch env n b).length = b.length := by
  induction n generalizing b with
  | zero => rfl
  | succ m ih =>
    have h1 : runBatch env (m + 1) b = runBatch env m (stepBatch env b) := rfl
    rw [h1, ih (stepBatch env b)]
    simp [stepBatch]

theorem runBatch_age_le (env : TrackingEnv) (n : ℕ) (b : List Particle)
    (i : ℕ) (d : Particle) :
    ((runBatch env n b).getD i d).age ≤ (b.getD i d).age + n := by
  induction n generalizing b with
  | zero => exact Nat.le_refl _
  | succ m ih =>
    have h1 : ((runBatch env (m + 1) b).getD i d).age
        = ((runBatch env m (stepBatch env b)).getD i d).age := rfl
    rw [h1]
    refine le_trans (ih (stepBatch env b)) ?_
    rw [stepBatch_getD]
    by_cases hlt : i < b.length
    · rw [if_pos hlt]
      have := stepParticle_age_le env (b.getD i d)
      omega
    · rw [if_neg hlt]
      have : b.getD i d = d := List.getD_eq_default _ _ (Nat.le_of_not_lt hlt)
      rw [this]
      omega

/-- C8: the run is bounded — one scheduler iteration never increases the
active-particle count, the batch keeps its size through a whole run, a
particle ages by at most one per iteration (so after `n` iterations its
age exceeds its initial age by at most `n`), a particle still active
after a step is strictly below the `maxIterations` budget, and retired
particles never step again; consequently `runBatch`, a structurally
recursive function of the iteration budget, finishes in finite time. -/
theorem C8_bounded_run (env : TrackingEnv) (b : List Particle) (n : ℕ) :
    aliveCount (stepBatch env b) ≤ aliveCount b ∧
    (runBatch env n b).length = b.length ∧
    (∀ (i : ℕ) (d : Particle),
      ((runBatch env n b).getD i d).age ≤ (b.getD i d).age + n) ∧
    (∀ p : Particle,
      (stepParticle env p).alive = false ∨
      (stepParticle env p).age < env.cfg.maxIterations) ∧
    (∀ p : Particle, p.alive = true ∨ stepParticle env p = p) :=
  ⟨aliveCount_stepBatch_le env b, runBatch_length env n b,
   fun i d => runBatch_age_le env n b i d,
   fun p => stepParticle_alive_age_lt env p,
   fun p => by
     cases hp : p.alive with
     | true => exact Or.inl rfl
     | false => exact Or.inr (stepParticle_of_not_alive env p hp)⟩

end DFT
